import Mathlib

/- Verification development for the gitness branch-protection rule engine
(app/services/protection) and the repository rule-update controller
(app/api/controller/repo) via a shallow embedding in Lean.

The engine implementation file rule_branch.go is not part of the available
sources; only its unit tests (rule_branch_test.go) are.  The engine is
therefore modelled from the specification, with every point on which the
unit tests speak pinned to the tests' expectations.  The controller code
(RuleUpdate, RuleUpdateInput.sanitize) and the UID validator (check.UID)
are present in the sources and are embedded directly from them. -/

namespace Gitness

/-- Modelled from the spec: a merge strategy for integrating a pull request.
The merge-method enumeration (types/enum) is not among the sources; the
glossary lists rebase, squash and merge-commit. -/
inductive MergeMethod where
  | merge
  | squash
  | rebase
  deriving DecidableEq, Repr

/-- Modelled from the spec: the system's full default merge-method
enumeration (enum.MergeMethods). -/
def MergeMethods : List MergeMethod :=
  [MergeMethod.merge, MergeMethod.squash, MergeMethod.rebase]

/-- The acting principal: identity plus administrator flag
(types.Principal, as used by the tests). -/
structure Principal where
  ID : Int
  Admin : Bool
  deriving DecidableEq, Repr

/-- Modelled from the spec: who may override violations (DefBypass). -/
structure DefBypass where
  UserIDs : List Int := []
  RepoOwners : Bool := false
  deriving DecidableEq, Repr

/-- Modelled from the spec: required status-check UIDs (DefStatusChecks). -/
structure DefStatusChecks where
  RequireUIDs : List String := []
  deriving DecidableEq, Repr

/-- Modelled from the spec: the require-resolve-all comments flag
(DefComments). -/
structure DefComments where
  RequireResolveAll : Bool := false
  deriving DecidableEq, Repr

/-- Modelled from the spec: allowed merge strategies and the
delete-source-branch-on-merge flag (DefMerge). -/
structure DefMerge where
  StrategiesAllowed : List MergeMethod := []
  DeleteBranch : Bool := false
  deriving DecidableEq, Repr

/-- Modelled from the spec: pull-request sub-policies (DefPullReq). -/
structure DefPullReq where
  StatusChecks : DefStatusChecks := {}
  Comments : DefComments := {}
  Merge : DefMerge := {}
  deriving DecidableEq, Repr

/-- Modelled from the spec: create/delete-forbidden lifecycle flags
(DefLifecycle). -/
structure DefLifecycle where
  CreateForbidden : Bool := false
  DeleteForbidden : Bool := false
  deriving DecidableEq, Repr

/-- Modelled from the spec: the branch-protection definition (Branch),
composed of independent sub-policies. -/
structure Branch where
  Bypass : DefBypass := {}
  PullReq : DefPullReq := {}
  Lifecycle : DefLifecycle := {}
  deriving DecidableEq, Repr

/-- A single named constraint failure (types.Violation); only the stable
code is relevant here. -/
structure Violation where
  Code : String
  deriving DecidableEq, Repr

/-- The result of evaluating one matched rule against one action
(types.RuleViolations). -/
structure RuleViolations where
  Bypassable : Bool
  Bypassed : Bool
  Violations : List Violation
  deriving DecidableEq, Repr

/-- The reported state of one status check: its UID and whether it reported
a passing conclusion (abstract per the spec's input contract). -/
structure CheckResult where
  UID : String
  Passed : Bool
  deriving DecidableEq, Repr

/-- Input to MergeVerify: acting principal, bypass request flag, repo-owner
assertion, and pull-request state (unresolved-comment count plus
status-check results). -/
structure MergeVerifyInput where
  Actor : Option Principal := none
  IsRepoOwner : Bool := false
  AllowBypass : Bool := false
  UnresolvedCount : Int := 0
  CheckResults : List CheckResult := []
  deriving DecidableEq, Repr

/-- Output of MergeVerify (MergeVerifyOutput). -/
structure MergeVerifyOutput where
  DeleteSourceBranch : Bool
  AllowedMethods : List MergeMethod
  deriving DecidableEq, Repr

/-- The ref action of a RefChangeVerify call (RefActionCreate,
RefActionUpdate, RefActionDelete). -/
inductive RefAction where
  | create
  | update
  | delete
  deriving DecidableEq, Repr

/-- The ref type of a RefChangeVerify call (RefTypeBranch, RefTypeTag). -/
inductive RefType where
  | branch
  | tag
  deriving DecidableEq, Repr

/-- Input to RefChangeVerify: acting principal, bypass request flag,
repo-owner assertion, ref action, ref type and affected ref names. -/
structure RefChangeVerifyInput where
  Actor : Option Principal := none
  IsRepoOwner : Bool := false
  AllowBypass : Bool := false
  RefAction : RefAction := RefAction.create
  RefType : RefType := RefType.branch
  RefNames : List String := []
  deriving DecidableEq, Repr

/-- Stable violation code for unresolved-comments violations. -/
def codePullReqCommentsReqResolveAll : String :=
  "pullreq-comments-require-resolve-all"

/-- Stable violation code for required status-check violations. -/
def codePullReqStatusChecksReqUIDs : String :=
  "pullreq-status-checks-required-uids"

/-- Stable violation code for forbidden branch deletion. -/
def codeLifecycleDelete : String := "lifecycle-delete"

/-- Stable violation code for forbidden branch creation (reserved by the
spec, same shape as deletion). -/
def codeLifecycleCreate : String := "lifecycle-create"

/-- Modelled from the spec: bypass eligibility (DefBypass.matches).  The
spec lists explicit UserIDs membership and the RepoOwners flag as criteria
and claims administrator status grants nothing, but the admin-no-bypass
cases of TestBranch_MergeVerify and TestBranch_RefChangeVerify
(src/app/services/protection/rule_branch_test.go) expect Bypassable=true
for an administrator under an empty bypass definition, so the
implementation necessarily also accepts an administrator actor; the
administrator disjunct is included here to match the tests. -/
def DefBypass.matches (v : DefBypass) (actor : Option Principal)
    (isRepoOwner : Bool) : Bool :=
  match actor with
  | none => false
  | some a => (v.RepoOwners && isRepoOwner) || a.Admin || decide (a.ID ∈ v.UserIDs)

/-- Modelled from the spec: the comments-resolution reducer of MergeVerify;
emits one violation when RequireResolveAll is set and unresolved comments
remain. -/
def commentsViolations (v : Branch) (inp : MergeVerifyInput) : List Violation :=
  if v.PullReq.Comments.RequireResolveAll = true ∧ 0 < inp.UnresolvedCount then
    [⟨codePullReqCommentsReqResolveAll⟩]
  else []

/-- Modelled from the spec: the required status-check UIDs not present with
a passing result. -/
def missingChecks (v : Branch) (inp : MergeVerifyInput) : List String :=
  v.PullReq.StatusChecks.RequireUIDs.filter
    (fun uid => decide (¬ ∃ c ∈ inp.CheckResults, c.UID = uid ∧ c.Passed = true))

/-- Modelled from the spec: one status-check violation per required UID not
present with a passing result. -/
def checksViolations (v : Branch) (inp : MergeVerifyInput) : List Violation :=
  (missingChecks v inp).map (fun _ => ⟨codePullReqStatusChecksReqUIDs⟩)

/-- Modelled from the spec: the ordered violation list of one rule in
MergeVerify; the comments violation precedes the status-check violations
(the order the tests assert). -/
def mergeViolationList (v : Branch) (inp : MergeVerifyInput) : List Violation :=
  commentsViolations v inp ++ checksViolations v inp

/-- Modelled from the spec: the bypass-resolver annotation step.  A rule
with zero violations contributes no RuleViolations entry; otherwise one
entry carries the rule's violations with Bypassable equal to the actor's
eligibility and Bypassed equal to eligibility AND bypass request. -/
def annotate (bypassable allowBypass : Bool) (vs : List Violation) :
    List RuleViolations :=
  if vs = [] then []
  else [{ Bypassable := bypassable, Bypassed := bypassable && allowBypass,
          Violations := vs }]

/-- Modelled from the spec: Branch.MergeVerify for a single rule
definition.  DeleteSourceBranch mirrors Merge.DeleteBranch; a non-empty
StrategiesAllowed restricts AllowedMethods, otherwise the full default
enumeration is allowed; violations are annotated by the bypass resolver. -/
def Branch.mergeVerify (v : Branch) (inp : MergeVerifyInput) :
    MergeVerifyOutput × List RuleViolations :=
  ({ DeleteSourceBranch := v.PullReq.Merge.DeleteBranch,
     AllowedMethods :=
       if v.PullReq.Merge.StrategiesAllowed = [] then MergeMethods
       else v.PullReq.Merge.StrategiesAllowed },
   annotate (v.Bypass.matches inp.Actor inp.IsRepoOwner) inp.AllowBypass
     (mergeViolationList v inp))

/-- Modelled from the spec: the lifecycle violation list of one rule in
RefChangeVerify.  Only branch refs are evaluated; a forbidden delete (and,
reserved, a forbidden create) emits one combined violation independent of
the number of ref names in the batch. -/
def refViolationList (v : Branch) (inp : RefChangeVerifyInput) : List Violation :=
  if inp.RefType = RefType.branch then
    (if v.Lifecycle.CreateForbidden = true ∧ inp.RefAction = RefAction.create then
       [⟨codeLifecycleCreate⟩]
     else [])
    ++ (if v.Lifecycle.DeleteForbidden = true ∧ inp.RefAction = RefAction.delete then
          [⟨codeLifecycleDelete⟩]
        else [])
  else []

/-- Modelled from the spec: Branch.RefChangeVerify for a single rule
definition. -/
def Branch.refChangeVerify (v : Branch) (inp : RefChangeVerifyInput) :
    List RuleViolations :=
  annotate (v.Bypass.matches inp.Actor inp.IsRepoOwner) inp.AllowBypass
    (refViolationList v inp)

/-- Modelled from the spec: the rule-set reduction of AllowedMethods.
Returns none when no matching rule restricts the methods; otherwise the
intersection of all non-empty StrategiesAllowed lists (ordered by the
first restricting rule). -/
def restrictAllowed : List Branch → Option (List MergeMethod)
  | [] => none
  | v :: rest =>
    if v.PullReq.Merge.StrategiesAllowed = [] then restrictAllowed rest
    else
      match restrictAllowed rest with
      | none => some v.PullReq.Merge.StrategiesAllowed
      | some l => some (v.PullReq.Merge.StrategiesAllowed.filter
          (fun m => decide (m ∈ l)))

/-- Modelled from the spec: AllowedMethods aggregated over the matching
rules with intersection semantics; when no rule restricts, all methods of
the default enumeration are allowed. -/
def allowedMethodsOverRules (rules : List Branch) : List MergeMethod :=
  match restrictAllowed rules with
  | none => MergeMethods
  | some l => l

/-- Number of violations carrying a given code across a RuleViolations
list. -/
def countCode (code : String) (rs : List RuleViolations) : Nat :=
  (rs.map (fun r => (r.Violations.filter (fun w => w.Code = code)).length)).sum

/-- Modelled from the spec: shell-style glob matching over characters,
supporting the star wildcard (any run of characters) and the question-mark
wildcard (any single character); other characters match literally.  The
claims exercise only the structure of Matches, not the glob syntax. -/
def globMatch : List Char → List Char → Bool
  | [], [] => true
  | [], _ :: _ => false
  | '*' :: ps, [] => globMatch ps []
  | '*' :: ps, c :: cs => globMatch ps (c :: cs) || globMatch ('*' :: ps) cs
  | '?' :: _, [] => false
  | '?' :: ps, _ :: cs => globMatch ps cs
  | _ :: _, [] => false
  | p :: ps, c :: cs => p = c && globMatch ps cs
termination_by p s => (s.length, p.length)

/-- Modelled from the spec: a rule's scope pattern — explicit ref names,
include globs and exclude globs (protection.Pattern; not among the
sources). -/
structure Pattern where
  Names : List String := []
  Include : List String := []
  Exclude : List String := []
  deriving DecidableEq, Repr

/-- Modelled from the spec: Pattern Matcher contract Matches(pattern,
refName).  A ref matches when it equals an explicit name or matches an
include glob — or unconditionally when the pattern has no explicit names
and no include globs, the spec's default applies-everywhere rule — and no
exclude glob matches it. -/
def patternMatches (p : Pattern) (ref : String) : Bool :=
  (if p.Names = [] ∧ p.Include = [] then true
   else decide (ref ∈ p.Names) || p.Include.any (fun g => globMatch g.data ref.data))
  && !(p.Exclude.any (fun g => globMatch g.data ref.data))

/-- Error outcomes of the rule-update controller path, one constructor per
distinct failure site in the sources. -/
inductive Err where
  | uidLength
  | uidRegex
  | badState
  | badPattern
  | defMissing
  | accessDenied
  | notFound
  | usersFailed
  | badDefinition
  | updateFailed
  deriving DecidableEq, Repr

/-- Whether a character is an ASCII lowercase letter. -/
def isLowerAlpha (c : Char) : Bool := 97 ≤ c.toNat && c.toNat ≤ 122

/-- Whether a character is an ASCII digit. -/
def isAsciiDigit (c : Char) : Bool := 48 ≤ c.toNat && c.toNat ≤ 57

/-- Whether a string matches the anchored uid regular expression of
types/check (a lowercase letter followed by lowercase letters, digits,
hyphens or underscores).  The character classes cover only ASCII, so a
character-level reading agrees with Go's byte-level matching. -/
def uidRegexMatches (uid : String) : Bool :=
  match uid.data with
  | [] => false
  | c :: rest =>
    isLowerAlpha c &&
      rest.all (fun d => isLowerAlpha d || isAsciiDigit d || d = '-' || d = '_')

/-- Embedding of check.UID (types/check): the byte length must lie in
[2, 64] and the uid must match the anchored uid regular expression. -/
def checkUID (uid : String) : Except Err Unit :=
  if uid.utf8ByteSize < 2 ∨ 64 < uid.utf8ByteSize then Except.error Err.uidLength
  else if uidRegexMatches uid then Except.ok ()
  else Except.error Err.uidRegex

/-- Embedding of types.Rule as far as the controller touches it.  The Go
field Type is called RType here because Type is reserved in Lean. -/
structure Rule where
  UID : String
  State : String
  Description : String
  Pattern : String
  RType : String
  Definition : String
  Users : List Int
  deriving DecidableEq, Repr

/-- Embedding of RuleUpdateInput (app/api/controller/repo): an empty UID
string stands for the absent field, the other fields are optional. -/
structure RuleUpdateInput where
  UID : String := ""
  State : Option String := none
  Description : Option String := none
  Pattern : Option Pattern := none
  Definition : Option String := none
  deriving DecidableEq, Repr

/-- Embedding of RuleUpdateInput.isEmpty: the UID is the empty string and
every optional field is absent. -/
def RuleUpdateInput.isEmpty (inp : RuleUpdateInput) : Bool :=
  decide (inp.UID = "") && decide (inp.State = none) &&
    decide (inp.Description = none) && decide (inp.Pattern = none) &&
    decide (inp.Definition = none)

/-- Embedding of the definition-presence check inside sanitize: a present
but empty definition payload is rejected. -/
def sanitizeDefStep (inp : RuleUpdateInput) : Except Err RuleUpdateInput :=
  match inp.Definition with
  | some d => if d.length = 0 then Except.error Err.defMissing else Except.ok inp
  | none => Except.ok inp

/-- Embedding of the pattern-validation step of sanitize followed by the
definition-presence step; pattern validation (Pattern.Validate) is an
external collaborator per the spec and is passed in as a function. -/
def sanitizePatternDef (pv : Pattern → Bool) (inp : RuleUpdateInput) :
    Except Err RuleUpdateInput :=
  match inp.Pattern with
  | some p => if pv p = true then sanitizeDefStep inp else Except.error Err.badPattern
  | none => sanitizeDefStep inp

/-- Embedding of the state/pattern/definition part of
RuleUpdateInput.sanitize.  State sanitization (enum.RuleState.Sanitize) is
an external collaborator per the spec and is passed in as a function. -/
def sanitizeAfterUID (ss : String → Option String) (pv : Pattern → Bool)
    (inp : RuleUpdateInput) : Except Err RuleUpdateInput :=
  match inp.State with
  | none => sanitizePatternDef pv inp
  | some s =>
    match ss s with
    | none => Except.error Err.badState
    | some s2 => sanitizePatternDef pv { inp with State := some s2 }

/-- Embedding of RuleUpdateInput.sanitize: the UID is validated by
check.UID only when non-empty, then state, pattern and definition are
checked in order.  Returns the (state-sanitized) input on success, as the
Go code mutates the input in place. -/
def RuleUpdateInput.sanitize (ss : String → Option String)
    (pv : Gitness.Pattern → Bool) (inp : RuleUpdateInput) :
    Except Err RuleUpdateInput :=
  match (if inp.UID = "" then Except.ok () else checkUID inp.UID) with
  | Except.error e => Except.error e
  | Except.ok _ => sanitizeAfterUID ss pv inp

/-- The external collaborators of Controller.RuleUpdate: permission check,
rule store lookup, rule-user resolution, definition sanitization, pattern
serialization, state sanitization, pattern validation, and the success of
the store update. -/
structure Env where
  repoAccessOk : Bool
  repoID : Int
  findByUID : Int → String → Except Err Rule
  getRuleUsers : Rule → Except Err (List Int)
  sanitizeJSON : String → String → Except Err String
  patternJSON : Pattern → String
  stateSanitize : String → Option String
  patternValidate : Pattern → Bool
  updateOk : Bool

/-- Embedding of Controller.RuleUpdate (app/api/controller/repo).  The
second component records, in order, every rule passed to ruleStore.Update,
so that frame effects on the store are observable. -/
def ruleUpdate (env : Env) (uid : String) (inp : RuleUpdateInput) :
    Except Err Rule × List Rule :=
  if env.repoAccessOk = true then
    match RuleUpdateInput.sanitize env.stateSanitize env.patternValidate inp with
    | Except.error e => (Except.error e, [])
    | Except.ok inp2 =>
      match env.findByUID env.repoID uid with
      | Except.error e => (Except.error e, [])
      | Except.ok r =>
        if inp2.isEmpty = true then
          match env.getRuleUsers r with
          | Except.error e => (Except.error e, [])
          | Except.ok users => (Except.ok { r with Users := users }, [])
        else
          let r1 := if inp2.UID = "" then r else { r with UID := inp2.UID }
          let r2 := match inp2.State with
                    | some s => { r1 with State := s }
                    | none => r1
          let r3 := match inp2.Description with
                    | some d => { r2 with Description := d }
                    | none => r2
          let r4 := match inp2.Pattern with
                    | some p => { r3 with Pattern := env.patternJSON p }
                    | none => r3
          match (match inp2.Definition with
                 | some d =>
                   match env.sanitizeJSON r4.RType d with
                   | Except.error _ => Except.error Err.badDefinition
                   | Except.ok dj => Except.ok { r4 with Definition := dj }
                 | none => Except.ok r4) with
          | Except.error e => (Except.error e, [])
          | Except.ok r5 =>
            match env.getRuleUsers r5 with
            | Except.error e => (Except.error e, [])
            | Except.ok users =>
              let r6 := { r5 with Users := users }
              if env.updateOk = true then (Except.ok r6, [r6])
              else (Except.error Err.updateFailed, [r6])
  else (Except.error Err.accessDenied, [])

/-- Every RuleViolations entry produced by the annotation step carries
Bypassed equal to Bypassable AND the bypass request. -/
lemma annotate_bypassed (b ab : Bool) (vs : List Violation) :
    ∀ r ∈ annotate b ab vs, r.Bypassed = (r.Bypassable && ab) := by
  intro r hr
  unfold annotate at hr
  split at hr
  · simp at hr
  · simp at hr
    subst hr
    rfl

/-- The violation lists inside the annotated output do not depend on the
bypass request flag. -/
lemma annotate_violations (b ab1 ab2 : Bool) (vs : List Violation) :
    (annotate b ab1 vs).map (fun r => r.Violations)
      = (annotate b ab2 vs).map (fun r => r.Violations) := by
  unfold annotate
  split <;> simp

/-- When the actor is eligible, every annotated entry has Bypassable true
and Bypassed equal to the bypass request. -/
lemma annotate_of_bypassable (ab : Bool) (vs : List Violation) :
    (annotate true ab vs).map (fun r => (r.Bypassable, r.Bypassed))
      = (annotate true ab vs).map (fun _ => (true, ab)) := by
  unfold annotate
  split <;> simp

example :
    (Branch.mergeVerify {} { Actor := some ⟨42, false⟩ })
      = ({ DeleteSourceBranch := false, AllowedMethods := MergeMethods }, []) := by
  decide

example :
    ((Branch.mergeVerify
        { Bypass := {},
          PullReq :=
            { StatusChecks := { RequireUIDs := ["abc"] },
              Comments := { RequireResolveAll := true },
              Merge := { DeleteBranch := true } } }
        { Actor := some ⟨66, true⟩, AllowBypass := false,
          UnresolvedCount := 1 }).2.map
      (fun r => (r.Bypassable, r.Bypassed, r.Violations.map Violation.Code)))
      = [(true, false,
          [codePullReqCommentsReqResolveAll, codePullReqStatusChecksReqUIDs])] := by
  decide

example :
    ((Branch.refChangeVerify
        { Bypass := { RepoOwners := true },
          Lifecycle := { DeleteForbidden := true } }
        { Actor := some ⟨42, false⟩, AllowBypass := true, IsRepoOwner := true,
          RefAction := RefAction.delete, RefType := RefType.branch,
          RefNames := ["abc"] }).map
      (fun r => (r.Bypassable, r.Bypassed, r.Violations.map Violation.Code)))
      = [(true, true, [codeLifecycleDelete])] := by
  decide

/-- C4: an empty Branch definition is a no-op rule — for every actor and
input, MergeVerify returns zero violations, DeleteSourceBranch false and
the full default merge-method enumeration, and RefChangeVerify returns
zero violations. -/
theorem c4_empty_branch_noop :
    ∀ (inp : MergeVerifyInput) (inq : RefChangeVerifyInput),
      Branch.mergeVerify {} inp
          = ({ DeleteSourceBranch := false, AllowedMethods := MergeMethods }, [])
        ∧ Branch.refChangeVerify {} inq = [] := by
  intro inp inq
  refine ⟨?_, ?_⟩
  · simp [Branch.mergeVerify, mergeViolationList, commentsViolations,
      missingChecks, checksViolations, annotate]
  · simp [Branch.refChangeVerify, refViolationList, annotate]

/-- C3: for every rule with Lifecycle.DeleteForbidden and every
RefChangeVerify input deleting branches, exactly one violation with code
lifecycle-delete is produced, for any actor (administrator or not) and any
batch of ref names. -/
theorem c3_delete_forbidden_one_violation :
    ∀ (v : Branch) (inp : RefChangeVerifyInput),
      v.Lifecycle.DeleteForbidden = true →
      inp.RefAction = RefAction.delete →
      inp.RefType = RefType.branch →
      countCode codeLifecycleDelete (Branch.refChangeVerify v inp) = 1 := by
  intro v inp h1 h2 h3
  simp [Branch.refChangeVerify, refViolationList, h1, h2, h3, annotate, countCode]

/-- C3 witness: the delete-forbidden rule of the reference test, evaluated
for an administrator deleting branch abc, yields exactly one
lifecycle-delete violation. -/
theorem c3_delete_forbidden_one_violation_witness :
    countCode codeLifecycleDelete
      (Branch.refChangeVerify
        { Lifecycle := { DeleteForbidden := true } }
        { Actor := some ⟨66, true⟩, AllowBypass := false,
          RefAction := RefAction.delete, RefType := RefType.branch,
          RefNames := ["abc"] }) = 1 :=
  c3_delete_forbidden_one_violation
    { Lifecycle := { DeleteForbidden := true } }
    { Actor := some ⟨66, true⟩, AllowBypass := false,
      RefAction := RefAction.delete, RefType := RefType.branch,
      RefNames := ["abc"] } rfl rfl rfl

/-- C1 counterexample: the admin-no-bypass case of TestBranch_MergeVerify —
an administrator actor under a rule whose bypass definition is empty — is
annotated Bypassable=true, not Bypassable=false as the claim states. -/
theorem c1_counterexample :
    ((Branch.mergeVerify
        { PullReq :=
            { StatusChecks := { RequireUIDs := ["abc"] },
              Comments := { RequireResolveAll := true },
              Merge := { DeleteBranch := true } } }
        { Actor := some ⟨66, true⟩, AllowBypass := false,
          UnresolvedCount := 1 }).2.map
      (fun r => (r.Bypassable, r.Bypassed))) = [(true, false)] := by
  decide

/-- C1 amended: for every rule whose bypass definition is empty and every
administrator actor, MergeVerify and RefChangeVerify annotate each
produced RuleViolations entry with Bypassable=true and
Bypassed=AllowBypass — administrator status alone makes the actor
eligible to bypass. -/
theorem c1_admin_is_bypassable :
    ∀ (v : Branch) (inp : MergeVerifyInput) (inq : RefChangeVerifyInput)
      (a b : Principal),
      v.Bypass.UserIDs = [] → v.Bypass.RepoOwners = false →
      inp.Actor = some a → a.Admin = true →
      inq.Actor = some b → b.Admin = true →
      ((Branch.mergeVerify v inp).2.map (fun r => (r.Bypassable, r.Bypassed))
          = (Branch.mergeVerify v inp).2.map (fun _ => (true, inp.AllowBypass)))
        ∧ ((Branch.refChangeVerify v inq).map (fun r => (r.Bypassable, r.Bypassed))
          = (Branch.refChangeVerify v inq).map (fun _ => (true, inq.AllowBypass))) := by
  intro v inp inq a b _ _ hactor hadm hactor2 hadm2
  have hm : v.Bypass.matches inp.Actor inp.IsRepoOwner = true := by
    simp [DefBypass.matches, hactor, hadm]
  have hm2 : v.Bypass.matches inq.Actor inq.IsRepoOwner = true := by
    simp [DefBypass.matches, hactor2, hadm2]
  constructor
  · simpa [Branch.mergeVerify, hm] using
      annotate_of_bypassable inp.AllowBypass (mergeViolationList v inp)
  · simpa [Branch.refChangeVerify, hm2] using
      annotate_of_bypassable inq.AllowBypass (refViolationList v inq)

/-- C1 witness: at the admin-no-bypass fixtures of both reference tests the
amended statement evaluates as claimed. -/
theorem c1_admin_is_bypassable_witness :
    ((Branch.mergeVerify
        { PullReq :=
            { StatusChecks := { RequireUIDs := ["abc"] },
              Comments := { RequireResolveAll := true },
              Merge := { DeleteBranch := true } },
          Lifecycle := { DeleteForbidden := true } }
        { Actor := some ⟨66, true⟩, AllowBypass := false,
          UnresolvedCount := 1 }).2.map (fun r => (r.Bypassable, r.Bypassed))
      = (Branch.mergeVerify
        { PullReq :=
            { StatusChecks := { RequireUIDs := ["abc"] },
              Comments := { RequireResolveAll := true },
              Merge := { DeleteBranch := true } },
          Lifecycle := { DeleteForbidden := true } }
        { Actor := some ⟨66, true⟩, AllowBypass := false,
          UnresolvedCount := 1 }).2.map (fun _ => (true, false)))
    ∧ ((Branch.refChangeVerify
        { PullReq :=
            { StatusChecks := { RequireUIDs := ["abc"] },
              Comments := { RequireResolveAll := true },
              Merge := { DeleteBranch := true } },
          Lifecycle := { DeleteForbidden := true } }
        { Actor := some ⟨66, true⟩, AllowBypass := false,
          RefAction := RefAction.delete, RefType := RefType.branch,
          RefNames := ["abc"] }).map (fun r => (r.Bypassable, r.Bypassed))
      = (Branch.refChangeVerify
        { PullReq :=
            { StatusChecks := { RequireUIDs := ["abc"] },
              Comments := { RequireResolveAll := true },
              Merge := { DeleteBranch := true } },
          Lifecycle := { DeleteForbidden := true } }
        { Actor := some ⟨66, true⟩, AllowBypass := false,
          RefAction := RefAction.delete, RefType := RefType.branch,
          RefNames := ["abc"] }).map (fun _ => (true, false))) := by
  have h := c1_admin_is_bypassable
    { PullReq :=
        { StatusChecks := { RequireUIDs := ["abc"] },
          Comments := { RequireResolveAll := true },
          Merge := { DeleteBranch := true } },
      Lifecycle := { DeleteForbidden := true } }
    { Actor := some ⟨66, true⟩, AllowBypass := false, UnresolvedCount := 1 }
    { Actor := some ⟨66, true⟩, AllowBypass := false,
      RefAction := RefAction.delete, RefType := RefType.branch,
      RefNames := ["abc"] }
    ⟨66, true⟩ ⟨66, true⟩ rfl rfl rfl rfl rfl rfl
  exact ⟨h.1, h.2⟩

/-- C7 counterexample: under the owner-bypass rule, an actor who is not a
repo owner but is an administrator is annotated Bypassable=true and
Bypassed=true, not Bypassable=false and Bypassed=false as the claim states
for every non-owner. -/
theorem c7_counterexample :
    ((Branch.refChangeVerify
        { Bypass := { RepoOwners := true },
          Lifecycle := { DeleteForbidden := true } }
        { Actor := some ⟨66, true⟩, AllowBypass := true, IsRepoOwner := false,
          RefAction := RefAction.delete, RefType := RefType.branch,
          RefNames := ["abc"] }).map (fun r => (r.Bypassable, r.Bypassed)))
      = [(true, true)] := by
  decide

/-- C7 amended: under a rule with Bypass.RepoOwners=true and
Lifecycle.DeleteForbidden=true, on a branch delete the single
lifecycle-delete violation is annotated Bypassable=true and Bypassed=true
for a repo owner requesting bypass, and Bypassable=false and
Bypassed=false for an actor who is not a repo owner, not an administrator
and not listed in Bypass.UserIDs. -/
theorem c7_owner_bypass :
    ∀ (v : Branch) (inp : RefChangeVerifyInput) (a : Principal),
      v.Bypass.RepoOwners = true → v.Lifecycle.DeleteForbidden = true →
      inp.RefAction = RefAction.delete → inp.RefType = RefType.branch →
      inp.Actor = some a →
      ((inp.IsRepoOwner = true → inp.AllowBypass = true →
          (Branch.refChangeVerify v inp).map
            (fun r => (r.Bypassable, r.Bypassed, r.Violations.map Violation.Code))
            = [(true, true, [codeLifecycleDelete])])
        ∧ (inp.IsRepoOwner = false → a.Admin = false →
            a.ID ∉ v.Bypass.UserIDs →
          (Branch.refChangeVerify v inp).map
            (fun r => (r.Bypassable, r.Bypassed, r.Violations.map Violation.Code))
            = [(false, false, [codeLifecycleDelete])])) := by
  intro v inp a hro hdf hact htyp hactor
  constructor
  · intro howner hallow
    have hm : v.Bypass.matches inp.Actor inp.IsRepoOwner = true := by
      simp [DefBypass.matches, hactor, hro, howner]
    simp [Branch.refChangeVerify, refViolationList, hdf, hact, htyp, hm,
      hallow, annotate]
  · intro howner hadm hmem
    have hm : v.Bypass.matches inp.Actor inp.IsRepoOwner = false := by
      simp [DefBypass.matches, hactor, howner, hadm, hmem]
    simp [Branch.refChangeVerify, refViolationList, hdf, hact, htyp, hm,
      annotate]

/-- C7 witness: the owner-bypass and user-no-bypass fixtures of
TestBranch_RefChangeVerify evaluate as the amended statement says. -/
theorem c7_owner_bypass_witness :
    ((Branch.refChangeVerify
        { Bypass := { RepoOwners := true },
          Lifecycle := { DeleteForbidden := true } }
        { Actor := some ⟨42, false⟩, AllowBypass := true, IsRepoOwner := true,
          RefAction := RefAction.delete, RefType := RefType.branch,
          RefNames := ["abc"] }).map
        (fun r => (r.Bypassable, r.Bypassed, r.Violations.map Violation.Code))
        = [(true, true, [codeLifecycleDelete])])
    ∧ ((Branch.refChangeVerify
        { Bypass := { RepoOwners := true },
          Lifecycle := { DeleteForbidden := true } }
        { Actor := some ⟨42, false⟩, AllowBypass := true, IsRepoOwner := false,
          RefAction := RefAction.delete, RefType := RefType.branch,
          RefNames := ["abc"] }).map
        (fun r => (r.Bypassable, r.Bypassed, r.Violations.map Violation.Code))
        = [(false, false, [codeLifecycleDelete])]) :=
  ⟨(c7_owner_bypass
      { Bypass := { RepoOwners := true },
        Lifecycle := { DeleteForbidden := true } }
      { Actor := some ⟨42, false⟩, AllowBypass := true, IsRepoOwner := true,
        RefAction := RefAction.delete, RefType := RefType.branch,
        RefNames := ["abc"] }
      ⟨42, false⟩ rfl rfl rfl rfl rfl).1 rfl rfl,
   (c7_owner_bypass
      { Bypass := { RepoOwners := true },
        Lifecycle := { DeleteForbidden := true } }
      { Actor := some ⟨42, false⟩, AllowBypass := true, IsRepoOwner := false,
        RefAction := RefAction.delete, RefType := RefType.branch,
        RefNames := ["abc"] }
      ⟨42, false⟩ rfl rfl rfl rfl rfl).2 rfl rfl (by decide)⟩

/-- C2: in every entry returned by MergeVerify or RefChangeVerify,
Bypassed equals Bypassable AND AllowBypass; an actor listed in
Bypass.UserIDs is annotated Bypassable=true with Bypassed equal to
AllowBypass; and the violation lists of the entries do not depend on
AllowBypass — bypass never removes violations from the result. -/
theorem c2_bypassed_iff_bypassable_and_requested :
    ∀ (v : Branch) (inp : MergeVerifyInput) (inq : RefChangeVerifyInput)
      (b1 b2 : Bool) (a : Principal),
      ((Branch.mergeVerify v inp).2.map (fun r => r.Bypassed)
          = (Branch.mergeVerify v inp).2.map
              (fun r => r.Bypassable && inp.AllowBypass))
        ∧ ((Branch.refChangeVerify v inq).map (fun r => r.Bypassed)
          = (Branch.refChangeVerify v inq).map
              (fun r => r.Bypassable && inq.AllowBypass))
        ∧ (inp.Actor = some a → a.ID ∈ v.Bypass.UserIDs →
            (Branch.mergeVerify v inp).2.map (fun r => (r.Bypassable, r.Bypassed))
              = (Branch.mergeVerify v inp).2.map
                  (fun _ => (true, inp.AllowBypass)))
        ∧ ((Branch.mergeVerify v { inp with AllowBypass := b1 }).2.map
              (fun r => r.Violations)
            = (Branch.mergeVerify v { inp with AllowBypass := b2 }).2.map
                (fun r => r.Violations))
        ∧ ((Branch.refChangeVerify v { inq with AllowBypass := b1 }).map
              (fun r => r.Violations)
            = (Branch.refChangeVerify v { inq with AllowBypass := b2 }).map
                (fun r => r.Violations)) := by
  intro v inp inq b1 b2 a
  refine ⟨?_, ?_, ?_, ?_, ?_⟩
  · unfold Branch.mergeVerify annotate
    split <;> simp
  · unfold Branch.refChangeVerify annotate
    split <;> simp
  · intro hactor hmem
    have hm : v.Bypass.matches inp.Actor inp.IsRepoOwner = true := by
      simp [DefBypass.matches, hactor, hmem]
    simpa [Branch.mergeVerify, hm] using
      annotate_of_bypassable inp.AllowBypass (mergeViolationList v inp)
  · have h1 : mergeViolationList v { inp with AllowBypass := b1 }
        = mergeViolationList v inp := rfl
    have h2 : mergeViolationList v { inp with AllowBypass := b2 }
        = mergeViolationList v inp := rfl
    simpa [Branch.mergeVerify, h1, h2] using
      annotate_violations (v.Bypass.matches inp.Actor inp.IsRepoOwner) b1 b2
        (mergeViolationList v inp)
  · have h1 : refViolationList v { inq with AllowBypass := b1 }
        = refViolationList v inq := rfl
    have h2 : refViolationList v { inq with AllowBypass := b2 }
        = refViolationList v inq := rfl
    simpa [Branch.refChangeVerify, h1, h2] using
      annotate_violations (v.Bypass.matches inq.Actor inq.IsRepoOwner) b1 b2
        (refViolationList v inq)

/-- C2 witness: the user-bypass fixture of TestBranch_MergeVerify — the
actor listed in Bypass.UserIDs with AllowBypass=true — is annotated
Bypassable=true, Bypassed=true. -/
theorem c2_bypassed_iff_bypassable_and_requested_witness :
    ((42 : Int) ∈ ([42] : List Int))
    ∧ ((Branch.mergeVerify
        { Bypass := { UserIDs := [42] },
          PullReq :=
            { StatusChecks := { RequireUIDs := ["abc"] },
              Comments := { RequireResolveAll := true },
              Merge := { DeleteBranch := true } } }
        { Actor := some ⟨42, false⟩, AllowBypass := true,
          UnresolvedCount := 1 }).2.map (fun r => (r.Bypassable, r.Bypassed))
      = (Branch.mergeVerify
        { Bypass := { UserIDs := [42] },
          PullReq :=
            { StatusChecks := { RequireUIDs := ["abc"] },
              Comments := { RequireResolveAll := true },
              Merge := { DeleteBranch := true } } }
        { Actor := some ⟨42, false⟩, AllowBypass := true,
          UnresolvedCount := 1 }).2.map (fun _ => (true, true))) := by
  have h := (c2_bypassed_iff_bypassable_and_requested
    { Bypass := { UserIDs := [42] },
      PullReq :=
        { StatusChecks := { RequireUIDs := ["abc"] },
          Comments := { RequireResolveAll := true },
          Merge := { DeleteBranch := true } } }
    { Actor := some ⟨42, false⟩, AllowBypass := true, UnresolvedCount := 1 }
    {} true true ⟨42, false⟩).2.2.1 rfl (by decide)
  exact ⟨by decide, h⟩

/-- C6: for every rule violating both the comments policy and the required
status-checks policy, the violation list of the produced entry starts with
the comments code and continues with only status-check codes — the
comments violation precedes the status-checks violations. -/
theorem c6_comments_precede_status_checks :
    ∀ (v : Branch) (inp : MergeVerifyInput),
      v.PullReq.Comments.RequireResolveAll = true →
      0 < inp.UnresolvedCount →
      (∃ uid ∈ v.PullReq.StatusChecks.RequireUIDs,
          ¬ ∃ c ∈ inp.CheckResults, c.UID = uid ∧ c.Passed = true) →
      missingChecks v inp ≠ []
        ∧ (Branch.mergeVerify v inp).2.map (fun r => r.Violations.map Violation.Code)
            = [codePullReqCommentsReqResolveAll ::
                (missingChecks v inp).map (fun _ => codePullReqStatusChecksReqUIDs)] := by
  intro v inp h1 h2 hex
  have hm : missingChecks v inp ≠ [] := by
    obtain ⟨uid, hmem, hnp⟩ := hex
    exact List.ne_nil_of_mem
      (List.mem_filter.mpr ⟨hmem, by simpa using hnp⟩)
  refine ⟨hm, ?_⟩
  have hc : commentsViolations v inp = [⟨codePullReqCommentsReqResolveAll⟩] := by
    simp [commentsViolations, h1, h2]
  simp [Branch.mergeVerify, annotate, mergeViolationList, hc,
    checksViolations, List.map_map]

/-- C6 witness: the admin-no-bypass fixture of TestBranch_MergeVerify has
one unresolved comment and one missing required check, and its violation
codes come out as comments first, status-checks second. -/
theorem c6_comments_precede_status_checks_witness :
    missingChecks
        { PullReq :=
            { StatusChecks := { RequireUIDs := ["abc"] },
              Comments := { RequireResolveAll := true },
              Merge := { DeleteBranch := true } } }
        { Actor := some ⟨66, true⟩, AllowBypass := false, UnresolvedCount := 1 } ≠ []
    ∧ (Branch.mergeVerify
        { PullReq :=
            { StatusChecks := { RequireUIDs := ["abc"] },
              Comments := { RequireResolveAll := true },
              Merge := { DeleteBranch := true } } }
        { Actor := some ⟨66, true⟩, AllowBypass := false,
          UnresolvedCount := 1 }).2.map (fun r => r.Violations.map Violation.Code)
      = [codePullReqCommentsReqResolveAll ::
          (missingChecks
            { PullReq :=
                { StatusChecks := { RequireUIDs := ["abc"] },
                  Comments := { RequireResolveAll := true },
                  Merge := { DeleteBranch := true } } }
            { Actor := some ⟨66, true⟩, AllowBypass := false,
              UnresolvedCount := 1 }).map
            (fun _ => codePullReqStatusChecksReqUIDs)] :=
  c6_comments_precede_status_checks
    { PullReq :=
        { StatusChecks := { RequireUIDs := ["abc"] },
          Comments := { RequireResolveAll := true },
          Merge := { DeleteBranch := true } } }
    { Actor := some ⟨66, true⟩, AllowBypass := false, UnresolvedCount := 1 }
    rfl (by decide) ⟨"abc", by decide, by decide⟩

/-- The rule-set reduction yields no restriction exactly when no rule has a
non-empty StrategiesAllowed list. -/
lemma restrictAllowed_eq_none_iff (rules : List Branch) :
    restrictAllowed rules = none ↔
      ∀ v ∈ rules, v.PullReq.Merge.StrategiesAllowed = [] := by
  induction rules with
  | nil => simp [restrictAllowed]
  | cons v rest ih =>
    by_cases h : v.PullReq.Merge.StrategiesAllowed = []
    · simp [restrictAllowed, h, ih]
    · cases hr : restrictAllowed rest <;>
        simp [restrictAllowed, h, hr]

/-- Membership in a produced restriction list is membership in every
restricting rule's StrategiesAllowed list. -/
lemma mem_restrictAllowed_some (rules : List Branch) :
    ∀ (l : List MergeMethod) (m : MergeMethod),
      restrictAllowed rules = some l →
      (m ∈ l ↔ ∀ v ∈ rules, v.PullReq.Merge.StrategiesAllowed ≠ [] →
          m ∈ v.PullReq.Merge.StrategiesAllowed) := by
  induction rules with
  | nil => intro l m h; simp [restrictAllowed] at h
  | cons v rest ih =>
    intro l m h
    by_cases hv : v.PullReq.Merge.StrategiesAllowed = []
    · rw [restrictAllowed, if_pos hv] at h
      rw [ih l m h]
      simp [hv]
    · rw [restrictAllowed, if_neg hv] at h
      cases hr : restrictAllowed rest with
      | none =>
        rw [hr] at h
        injection h with h
        subst h
        have hall := (restrictAllowed_eq_none_iff rest).mp hr
        simp only [List.mem_cons, forall_eq_or_imp]
        constructor
        · intro hm
          exact ⟨fun _ => hm, fun u hu hne => absurd (hall u hu) hne⟩
        · intro hc
          exact hc.1 hv
      | some l2 =>
        rw [hr] at h
        injection h with h
        subst h
        rw [List.mem_filter]
        simp only [List.mem_cons, forall_eq_or_imp, decide_eq_true_iff]
        rw [ih l2 m hr]
        constructor
        · intro hc
          exact ⟨fun _ => hc.1, hc.2⟩
        · intro hc
          exact ⟨hc.1 hv, hc.2⟩

/-- A single restricting rule among otherwise non-restricting rules
determines the reduction result exactly. -/
lemma restrictAllowed_single (pre : List Branch) :
    ∀ (post : List Branch) (v : Branch),
      (∀ u ∈ pre, u.PullReq.Merge.StrategiesAllowed = []) →
      (∀ u ∈ post, u.PullReq.Merge.StrategiesAllowed = []) →
      v.PullReq.Merge.StrategiesAllowed ≠ [] →
      restrictAllowed (pre ++ v :: post)
        = some v.PullReq.Merge.StrategiesAllowed := by
  induction pre with
  | nil =>
    intro post v _ hpost hv
    rw [List.nil_append, restrictAllowed, if_neg hv,
      (restrictAllowed_eq_none_iff post).mpr hpost]
  | cons p pre ih =>
    intro post v hpre hpost hv
    have hp : p.PullReq.Merge.StrategiesAllowed = [] := hpre p (by simp)
    rw [List.cons_append, restrictAllowed, if_pos hp]
    exact ih post v (fun u hu => hpre u (by simp [hu])) hpost hv

/-- Every merge method belongs to the default enumeration. -/
lemma mem_MergeMethods (m : MergeMethod) : m ∈ MergeMethods := by
  cases m <;> simp [MergeMethods]

/-- C5: AllowedMethods has intersection semantics over the matching rules —
when no rule restricts, the full default enumeration is allowed; one
restricting rule with StrategiesAllowed=[rebase, squash] alone yields
exactly [rebase, squash]; in general a method survives iff every
restricting rule allows it; and the per-rule MergeVerify output agrees
with the reduction over the singleton rule list. -/
theorem c5_allowed_methods_intersection :
    ∀ (rules pre post : List Branch) (v : Branch) (m : MergeMethod)
      (inp : MergeVerifyInput),
      ((∀ u ∈ rules, u.PullReq.Merge.StrategiesAllowed = []) →
          allowedMethodsOverRules rules = MergeMethods)
        ∧ (v.PullReq.Merge.StrategiesAllowed
              = [MergeMethod.rebase, MergeMethod.squash] →
            (∀ u ∈ pre, u.PullReq.Merge.StrategiesAllowed = []) →
            (∀ u ∈ post, u.PullReq.Merge.StrategiesAllowed = []) →
            allowedMethodsOverRules (pre ++ v :: post)
              = [MergeMethod.rebase, MergeMethod.squash])
        ∧ (m ∈ allowedMethodsOverRules rules ↔
            ∀ u ∈ rules, u.PullReq.Merge.StrategiesAllowed ≠ [] →
              m ∈ u.PullReq.Merge.StrategiesAllowed)
        ∧ (Branch.mergeVerify v inp).1.AllowedMethods
            = allowedMethodsOverRules [v] := by
  intro rules pre post v m inp
  refine ⟨?_, ?_, ?_, ?_⟩
  · intro hall
    rw [allowedMethodsOverRules, (restrictAllowed_eq_none_iff rules).mpr hall]
  · intro hv hpre hpost
    rw [allowedMethodsOverRules,
      restrictAllowed_single pre post v hpre hpost (by rw [hv]; simp), hv]
  · cases hr : restrictAllowed rules with
    | none =>
      rw [allowedMethodsOverRules, hr]
      have hall := (restrictAllowed_eq_none_iff rules).mp hr
      simp only [mem_MergeMethods, true_iff]
      intro u hu hne
      exact absurd (hall u hu) hne
    | some l =>
      rw [allowedMethodsOverRules, hr]
      exact mem_restrictAllowed_some rules l m hr
  · by_cases hv : v.PullReq.Merge.StrategiesAllowed = []
    · simp [Branch.mergeVerify, allowedMethodsOverRules, restrictAllowed, hv]
    · simp [Branch.mergeVerify, allowedMethodsOverRules, restrictAllowed, hv]

/-- C5 witness: one matching rule with StrategiesAllowed=[rebase, squash]
and no other restricting rule yields exactly [rebase, squash], the
merge-methods fixture of TestBranch_MergeVerify. -/
theorem c5_allowed_methods_intersection_witness :
    allowedMethodsOverRules
        ([] ++ { PullReq := { Merge := { StrategiesAllowed :=
            [MergeMethod.rebase, MergeMethod.squash] } } } :: [])
      = [MergeMethod.rebase, MergeMethod.squash] :=
  (c5_allowed_methods_intersection [] [] []
      { PullReq := { Merge := { StrategiesAllowed :=
          [MergeMethod.rebase, MergeMethod.squash] } } }
      MergeMethod.merge {}).2.1 rfl (by simp) (by simp)

/-- C8 counterexample: the empty pattern — no explicit names, no include
globs — matches ref x even though x neither equals an explicit name nor
matches an include glob, so the claimed iff fails on the default
applies-everywhere rule. -/
theorem c8_counterexample :
    patternMatches { Names := [], Include := [], Exclude := [] } "x" = true
      ∧ ¬(("x" ∈ ([] : List String)) ∨
          (([] : List String).any (fun g => globMatch g.data "x".data)) = true) := by
  constructor
  · rfl
  · simp

/-- C8 amended: Matches(pattern, refName) returns true iff either the
pattern has no explicit names and no include globs (the default
applies-everywhere rule) or the ref name equals an explicit name or
matches an include glob, and in addition the ref name matches none of the
exclude globs; in particular a pattern with no includes and no explicit
names (and no excludes) matches every ref. -/
theorem c8_pattern_matches_iff :
    ∀ (p : Pattern) (ref : String),
      (patternMatches p ref = true ↔
        (((p.Names = [] ∧ p.Include = []) ∨ ref ∈ p.Names ∨
            (p.Include.any (fun g => globMatch g.data ref.data)) = true)
          ∧ (p.Exclude.any (fun g => globMatch g.data ref.data)) = false))
      ∧ patternMatches { Names := [], Include := [], Exclude := [] } ref = true := by
  intro p ref
  constructor
  · unfold patternMatches
    by_cases h : p.Names = [] ∧ p.Include = []
    · simp [h, Bool.not_eq_true']
    · simp [h, Bool.not_eq_true', Bool.or_eq_true, decide_eq_true_iff]
  · rfl

/-- C8 witness: a pattern listing the explicit name main matches the ref
main. -/
theorem c8_pattern_matches_iff_witness :
    patternMatches { Names := ["main"], Include := [], Exclude := [] } "main"
      = true :=
  (c8_pattern_matches_iff
      { Names := ["main"], Include := [], Exclude := [] } "main").1.mpr
    ⟨Or.inr (Or.inl (by simp)), rfl⟩

/-- The definition-presence step can only fail with the missing-definition
error. -/
lemma sanitizeDefStep_error (inp : RuleUpdateInput) (e : Err) :
    sanitizeDefStep inp = Except.error e → e = Err.defMissing := by
  intro h
  unfold sanitizeDefStep at h
  cases hD : inp.Definition with
  | none => simp [hD] at h
  | some d =>
    simp only [hD] at h
    split at h <;> simp_all

/-- The pattern/definition steps of sanitize can only fail with the
bad-pattern or missing-definition errors. -/
lemma sanitizePatternDef_error (pv : Pattern → Bool)
    (inp : RuleUpdateInput) (e : Err) :
    sanitizePatternDef pv inp = Except.error e →
      e = Err.badPattern ∨ e = Err.defMissing := by
  intro h
  unfold sanitizePatternDef at h
  cases hP : inp.Pattern with
  | none =>
    simp only [hP] at h
    exact Or.inr (sanitizeDefStep_error inp e h)
  | some p =>
    simp only [hP] at h
    split at h
    · exact Or.inr (sanitizeDefStep_error inp e h)
    · simp_all

/-- The state/pattern/definition part of sanitize can only fail with the
bad-state, bad-pattern or missing-definition errors, never with a uid
error. -/
lemma sanitizeAfterUID_error (ss : String → Option String)
    (pv : Pattern → Bool) (inp : RuleUpdateInput) (e : Err) :
    sanitizeAfterUID ss pv inp = Except.error e →
      e = Err.badState ∨ e = Err.badPattern ∨ e = Err.defMissing := by
  intro h
  unfold sanitizeAfterUID at h
  cases hS : inp.State with
  | none =>
    simp only [hS] at h
    exact Or.inr (sanitizePatternDef_error pv inp e h)
  | some s =>
    simp only [hS] at h
    cases hss : ss s with
    | none =>
      simp only [hss] at h
      simp at h
      exact Or.inl h.symm
    | some s2 =>
      simp only [hss] at h
      exact Or.inr (sanitizePatternDef_error pv { inp with State := some s2 } e h)

/-- Sanitizing an empty update input succeeds and returns it unchanged. -/
lemma sanitize_of_isEmpty (ss : String → Option String)
    (pv : Pattern → Bool) (inp : RuleUpdateInput) :
    inp.isEmpty = true →
      RuleUpdateInput.sanitize ss pv inp = Except.ok inp := by
  intro h
  simp only [RuleUpdateInput.isEmpty, Bool.and_eq_true, decide_eq_true_iff] at h
  obtain ⟨⟨⟨⟨h1, h2⟩, h3⟩, h4⟩, h5⟩ := h
  simp [RuleUpdateInput.sanitize, sanitizeAfterUID, sanitizePatternDef,
    sanitizeDefStep, h1, h2, h4, h5]

/-- C9: a RuleUpdate call whose input is empty never calls
ruleStore.Update — the recorded update list is empty, so the persisted
rule is left unchanged — and, when the collaborator calls succeed, it
returns the stored rule (with its users resolved). -/
theorem c9_empty_update_is_noop :
    ∀ (env : Env) (uid : String) (inp : RuleUpdateInput),
      inp.isEmpty = true →
      (ruleUpdate env uid inp).2 = []
        ∧ (∀ (r : Rule) (users : List Int),
            env.repoAccessOk = true →
            env.findByUID env.repoID uid = Except.ok r →
            env.getRuleUsers r = Except.ok users →
            (ruleUpdate env uid inp).1 = Except.ok { r with Users := users }) := by
  intro env uid inp h
  have hs := sanitize_of_isEmpty env.stateSanitize env.patternValidate inp h
  constructor
  · by_cases ha : env.repoAccessOk = true
    · cases hf : env.findByUID env.repoID uid with
      | error e => simp [ruleUpdate, ha, hs, hf]
      | ok r =>
        cases hg : env.getRuleUsers r with
        | error e => simp [ruleUpdate, ha, hs, hf, h, hg]
        | ok users => simp [ruleUpdate, ha, hs, hf, h, hg]
    · simp [ruleUpdate, ha]
  · intro r users ha hf hg
    simp [ruleUpdate, ha, hs, hf, h, hg]

/-- C9 witness: a concrete empty input against a concrete store leaves the
update list empty and returns the stored rule with resolved users. -/
theorem c9_empty_update_is_noop_witness :
    (ruleUpdate
        { repoAccessOk := true, repoID := 1,
          findByUID := fun _ _ =>
            Except.ok ⟨"r", "active", "d", "p", "branch", "x", []⟩,
          getRuleUsers := fun _ => Except.ok [7],
          sanitizeJSON := fun _ d => Except.ok d,
          patternJSON := fun _ => "p",
          stateSanitize := fun s => some s,
          patternValidate := fun _ => true,
          updateOk := true } "u" {}).2 = []
    ∧ (ruleUpdate
        { repoAccessOk := true, repoID := 1,
          findByUID := fun _ _ =>
            Except.ok ⟨"r", "active", "d", "p", "branch", "x", []⟩,
          getRuleUsers := fun _ => Except.ok [7],
          sanitizeJSON := fun _ d => Except.ok d,
          patternJSON := fun _ => "p",
          stateSanitize := fun s => some s,
          patternValidate := fun _ => true,
          updateOk := true } "u" {}).1
      = Except.ok ⟨"r", "active", "d", "p", "branch", "x", [7]⟩ := by
  have h := c9_empty_update_is_noop
    { repoAccessOk := true, repoID := 1,
      findByUID := fun _ _ =>
        Except.ok ⟨"r", "active", "d", "p", "branch", "x", []⟩,
      getRuleUsers := fun _ => Except.ok [7],
      sanitizeJSON := fun _ d => Except.ok d,
      patternJSON := fun _ => "p",
      stateSanitize := fun s => some s,
      patternValidate := fun _ => true,
      updateOk := true } "u" {} (by decide)
  exact ⟨h.1, h.2 ⟨"r", "active", "d", "p", "branch", "x", []⟩ [7] rfl rfl rfl⟩

/-- C10: sanitize validates the UID only when it is non-empty — with an
empty UID no uid error can be produced — and a non-empty UID is rejected
with a uid error exactly when its byte length lies outside [2, 64] or it
fails the anchored lowercase uid regular expression. -/
theorem c10_sanitize_uid_validation :
    ∀ (ss : String → Option String) (pv : Pattern → Bool)
      (inp : RuleUpdateInput),
      (inp.UID = "" →
          ∀ e, RuleUpdateInput.sanitize ss pv inp = Except.error e →
            e ≠ Err.uidLength ∧ e ≠ Err.uidRegex)
        ∧ (inp.UID ≠ "" →
            ((∃ e, RuleUpdateInput.sanitize ss pv inp = Except.error e ∧
                (e = Err.uidLength ∨ e = Err.uidRegex))
              ↔ (inp.UID.utf8ByteSize < 2 ∨ 64 < inp.UID.utf8ByteSize ∨
                  uidRegexMatches inp.UID = false))) := by
  intro ss pv inp
  constructor
  · intro h0 e he
    rw [RuleUpdateInput.sanitize, if_pos h0] at he
    rcases sanitizeAfterUID_error ss pv inp e he with h | h | h <;>
      simp [h]
  · intro h0
    by_cases hl : inp.UID.utf8ByteSize < 2 ∨ 64 < inp.UID.utf8ByteSize
    · have hck : checkUID inp.UID = Except.error Err.uidLength := by
        rw [checkUID, if_pos hl]
      rw [RuleUpdateInput.sanitize, if_neg h0, hck]
      exact iff_of_true ⟨Err.uidLength, rfl, Or.inl rfl⟩
        (by rcases hl with h | h
            · exact Or.inl h
            · exact Or.inr (Or.inl h))
    · by_cases hm : uidRegexMatches inp.UID = true
      · have hck : checkUID inp.UID = Except.ok () := by
          rw [checkUID, if_neg hl, if_pos hm]
        rw [RuleUpdateInput.sanitize, if_neg h0, hck]
        refine iff_of_false ?_ ?_
        · rintro ⟨e, he, hor⟩
          rcases sanitizeAfterUID_error ss pv inp e he with h | h | h <;>
            subst h <;> simp at hor
        · push_neg at hl
          rintro (h | h | h)
          · omega
          · omega
          · rw [hm] at h; cases h
      · have hmf : uidRegexMatches inp.UID = false :=
          Bool.not_eq_true _ ▸ Bool.eq_false_iff.mpr hm
        have hck : checkUID inp.UID = Except.error Err.uidRegex := by
          rw [checkUID, if_neg hl, if_neg (by simp [hmf])]
        rw [RuleUpdateInput.sanitize, if_neg h0, hck]
        exact iff_of_true ⟨Err.uidRegex, rfl, Or.inr rfl⟩
          (Or.inr (Or.inr hmf))

/-- C10 witness: the uid Ab is non-empty and has a valid length but starts
with an uppercase letter, and sanitize rejects it with a uid error. -/
theorem c10_sanitize_uid_validation_witness :
    (("Ab" : String) ≠ "")
    ∧ (∃ e, RuleUpdateInput.sanitize (fun s => some s) (fun _ => true)
          { UID := "Ab" } = Except.error e ∧
        (e = Err.uidLength ∨ e = Err.uidRegex)) :=
  ⟨by decide,
   ((c10_sanitize_uid_validation (fun s => some s) (fun _ => true)
       { UID := "Ab" }).2 (by decide)).mpr (by decide)⟩

end Gitness
